import Mathlib

set_option maxRecDepth 8000

/-!
A shallow embedding of the message-level scam-detection engine
(`signals.py`, `rules.py`, `scorer.py`, `detector.py`) of the
Agentic-Honey-Pot repository, together with theorems settling the
specification claims about it.

Modelling conventions:
* Python floats are modelled by `ℚ`; every constant of the source is a
  short decimal, written here as the exact rational.  All concrete values
  appearing in theorems are far from binary-float rounding boundaries, so
  the idealisation agrees with the float computation at the compared
  precision.
* Python lists become `List`, dicts of explanations become association
  lists (assignment is insert-or-replace), raised exceptions become
  `Except.error`.
* Text is `String`; `str.lower` is `Char.toLower` per character (all
  modelled texts are ASCII); `str.strip` trims whitespace; `str.split()`
  splits on whitespace runs.
* `re.search` with `re.IGNORECASE` is modelled by a small regular
  expression AST and a fuel-based backtracking matcher.  Pattern strings
  that contain no regex metacharacters are modelled directly as
  case-insensitive substring tests, which is what searching for a literal
  pattern means.
-/

namespace ScamDetect

/-! ## signals.py — the signal catalog -/

/-- `SignalType` from signals.py: the closed set of indicator kinds. -/
inductive SignalType where
  | urgency | time_pressure | deadline | immediate_action
  | account_threat | account_suspension | kyc_failure
  | authority_impersonation | bank_impersonation | government_impersonation
  | payment_request | upi_request | otp_request | account_number_request
  | card_details_request | pin_request
  | phishing | suspicious_link | shortened_url | login_request
  | verify_link | misspelled_domain
  | repetition | escalation | ignoring_questions | copy_paste | deflection
deriving DecidableEq, Fintype

/-- `SignalCategory` from signals.py. -/
inductive SignalCategory where
  | urgency_pressure | account_authority | payment | phishing | conversation
deriving DecidableEq, Fintype

open SignalType

/-- The `.value` string of each enum member (signals.py). -/
def SignalType.value : SignalType → String
  | urgency => "urgency"
  | time_pressure => "time_pressure"
  | deadline => "deadline"
  | immediate_action => "immediate_action"
  | account_threat => "account_threat"
  | account_suspension => "account_suspension"
  | kyc_failure => "kyc_failure"
  | authority_impersonation => "authority_impersonation"
  | bank_impersonation => "bank_impersonation"
  | government_impersonation => "government_impersonation"
  | payment_request => "payment_request"
  | upi_request => "upi_request"
  | otp_request => "otp_request"
  | account_number_request => "account_number_request"
  | card_details_request => "card_details_request"
  | pin_request => "pin_request"
  | phishing => "phishing"
  | suspicious_link => "suspicious_link"
  | shortened_url => "shortened_url"
  | login_request => "login_request"
  | verify_link => "verify_link"
  | misspelled_domain => "misspelled_domain"
  | repetition => "repetition"
  | escalation => "escalation"
  | ignoring_questions => "ignoring_questions"
  | copy_paste => "copy_paste"
  | deflection => "deflection"

/-- `SIGNAL_TO_CATEGORY` / `get_signal_category` (signals.py).  Every
member of the enum is a key of the table, so the `.get` default
`SignalCategory.CONVERSATION` is never used; the total match below is the
table itself. -/
def get_signal_category : SignalType → SignalCategory
  | urgency | time_pressure | deadline | immediate_action => .urgency_pressure
  | account_threat | account_suspension | kyc_failure
  | authority_impersonation | bank_impersonation | government_impersonation => .account_authority
  | payment_request | upi_request | otp_request | account_number_request
  | card_details_request | pin_request => .payment
  | phishing | suspicious_link | shortened_url | login_request
  | verify_link | misspelled_domain => .phishing
  | repetition | escalation | ignoring_questions | copy_paste | deflection => .conversation

/-- `SIGNAL_WEIGHTS` / `get_signal_weight` (signals.py).  Every member is
a key, so the `.get` default `0.10` is never used. -/
def get_signal_weight : SignalType → ℚ
  | otp_request => 40/100
  | pin_request => 40/100
  | card_details_request => 35/100
  | account_number_request => 30/100
  | upi_request => 30/100
  | account_suspension => 25/100
  | suspicious_link => 22/100
  | verify_link => 20/100
  | shortened_url => 20/100
  | authority_impersonation => 18/100
  | bank_impersonation => 18/100
  | government_impersonation => 18/100
  | kyc_failure => 18/100
  | account_threat => 18/100
  | payment_request => 18/100
  | urgency => 12/100
  | time_pressure => 12/100
  | deadline => 12/100
  | immediate_action => 12/100
  | login_request => 12/100
  | phishing => 12/100
  | repetition => 10/100
  | escalation => 15/100
  | ignoring_questions => 12/100
  | copy_paste => 10/100
  | deflection => 10/100
  | misspelled_domain => 18/100

/-! ## scorer.py — ConfidenceScorer -/

/-- Clamp to [0,1]: the final `min(max(score, 0.0), 1.0)` of
`calculate_confidence` and `validate_confidence_range`. -/
def clamp01 (q : ℚ) : ℚ := min (max q 0) 1

/-- The decayed tail sum of `_calculate_base_score`: position `i` in the
descending weight list contributes `weight * 0.5 ** i`. -/
def decaySum : List ℚ → Nat → ℚ
  | [], _ => 0
  | w :: ws, i => w * (1/2) ^ i + decaySum ws (i + 1)

/-- `ConfidenceScorer._calculate_base_score`: sort the signal weights in
descending order; the primary weight counts fully, each further weight is
halved again (`decay_factor = 0.5 ** i`). -/
def calculate_base_score (signals : List SignalType) : ℚ :=
  match (signals.map get_signal_weight).insertionSort (· ≥ ·) with
  | [] => 0
  | w :: ws => w + decaySum ws 1

/-- `ConfidenceScorer._get_unique_categories`. -/
def unique_categories (signals : List SignalType) : Finset SignalCategory :=
  (signals.map get_signal_category).toFinset

/-- The `high_severity` set of `_has_high_severity_signals` (scorer.py
lines 112–117). -/
def high_severity_set : List SignalType :=
  [otp_request, pin_request, card_details_request, account_number_request]

/-- `ConfidenceScorer._has_high_severity_signals`. -/
def has_high_severity_signals (signals : List SignalType) : Bool :=
  signals.any (· ∈ high_severity_set)

/-- The payment set of `_is_classic_scam_combo` (scorer.py lines 127–133). -/
def combo_payment_set : List SignalType :=
  [upi_request, account_number_request, otp_request, pin_request, card_details_request]

/-- The threat set of `_is_classic_scam_combo` (scorer.py lines 138–142). -/
def combo_threat_set : List SignalType :=
  [account_threat, account_suspension, kyc_failure]

/-- The authority set of `_is_classic_scam_combo` (scorer.py lines 147–151). -/
def combo_authority_set : List SignalType :=
  [bank_impersonation, authority_impersonation, government_impersonation]

/-- `ConfidenceScorer._is_classic_scam_combo`: payment + threat, or
payment + authority. -/
def is_classic_scam_combo (signals : List SignalType) : Bool :=
  let has_payment := signals.any (· ∈ combo_payment_set)
  let has_threat := signals.any (· ∈ combo_threat_set)
  let has_authority := signals.any (· ∈ combo_authority_set)
  (has_payment && has_threat) || (has_payment && has_authority)

/-- The `conversation_pattern_signals` set of `_calculate_turn_multiplier`
(scorer.py lines 180–185).  Note it does not contain `deflection`. -/
def conversation_pattern_signals : List SignalType :=
  [repetition, escalation, ignoring_questions, copy_paste]

/-- History entries as the scorer and rule matcher see them: a dict with
optional `sender` and `text` fields, or a non-dict value (on which the
Python code's `msg.get` raises `AttributeError`). -/
inductive HistEntry where
  | dict (sender : Option String) (text : Option String)
  | nonDict
deriving DecidableEq

/-- `ConfidenceScorer._calculate_turn_multiplier`.  `turns_with_signals`
is set to `turn_count` in the source (the "assume all turns have signals"
simplification), so the multiplier depends on the history only through
its length. -/
def calculate_turn_multiplier (current_signals : List SignalType)
    (conversation_history : List HistEntry) : ℚ :=
  let turn_count : ℚ := conversation_history.length + 1
  if turn_count = 1 then 1
  else
    let turns_with_signals := turn_count
    let multiplier := 1 + min ((1/10) * (turns_with_signals - 1)) (3/10)
    let multiplier :=
      if current_signals.any (· ∈ conversation_pattern_signals) then multiplier + 1/10
      else multiplier
    min multiplier (14/10)

/-- The `critical_signals` set of `_apply_first_message_cap`
(scorer.py lines 198–202). -/
def critical_signals : List SignalType :=
  [otp_request, pin_request, card_details_request]

/-- The `payment_signals` set of `_apply_first_message_cap`
(scorer.py lines 205–208).  Note it contains only the UPI and
account-number requests. -/
def cap_payment_signals : List SignalType :=
  [upi_request, account_number_request]

/-- The `has_pressure` test of `_apply_first_message_cap`: the signal's
category is urgency/pressure or account/authority. -/
def has_pressure_signal (signals : List SignalType) : Bool :=
  signals.any fun sig =>
    get_signal_category sig = .urgency_pressure ∨
    get_signal_category sig = .account_authority

/-- `ConfidenceScorer._apply_first_message_cap`: the six branches, most
specific first. -/
def apply_first_message_cap (score : ℚ) (signals : List SignalType) : ℚ :=
  let has_critical := signals.any (· ∈ critical_signals)
  let has_payment := signals.any (· ∈ cap_payment_signals)
  let has_pressure := has_pressure_signal signals
  let categories := unique_categories signals
  if has_critical && has_pressure then min score (95/100)
  else if has_critical then max (min score (80/100)) (7/10)
  else if has_payment && has_pressure then min score (85/100)
  else if 3 ≤ categories.card then min score (75/100)
  else if 3 ≤ signals.length then min score (65/100)
  else min score (55/100)

/-- The score accumulated by `calculate_confidence` through its steps 1–3
(base score, category-diversity bonus, high-severity multiplier, classic
combo multiplier), before the turn multiplier and first-message cap. -/
def score_after_combo (signals : List SignalType) : ℚ :=
  let base_score := calculate_base_score signals
  let score := if 2 ≤ (unique_categories signals).card then base_score + 15/100 else base_score
  let score := if has_high_severity_signals signals then score * (13/10) else score
  if is_classic_scam_combo signals then score * (125/100) else score

/-- `ConfidenceScorer.calculate_confidence`. -/
def calculate_confidence (signals : List SignalType)
    (conversation_history : List HistEntry) (is_first_message : Bool) : ℚ :=
  if signals = [] then 0
  else
    let score := score_after_combo signals
    let score :=
      if conversation_history ≠ [] then
        score * calculate_turn_multiplier signals conversation_history
      else score
    let score := if is_first_message then apply_first_message_cap score signals else score
    clamp01 score

/-- `ConfidenceScorer.SCAM_DETECTION_THRESHOLD`. -/
def SCAM_DETECTION_THRESHOLD : ℚ := 7/10

/-- `ConfidenceScorer.is_scam_detected`. -/
def is_scam_detected (confidence : ℚ) : Bool :=
  SCAM_DETECTION_THRESHOLD ≤ confidence

/-- Python's `round(x, 2)` on the values reached in this development:
round to the nearest hundredth.  (Python rounds half to even; no value a
theorem below is evaluated at has a half-way third decimal, so the
direction of the tie-break is irrelevant here.) -/
def round2 (q : ℚ) : ℚ := (round (q * 100) : ℤ) / 100

/-- The pair returned by `score_message` (the `scoreExplanation` string of
the source is observability-only and not modelled). -/
structure ScoreResult where
  confidence : ℚ
  scamDetected : Bool
deriving DecidableEq

/-- `score_message` (scorer.py): `is_first_message` is "history absent or
empty"; the detection decision is taken on the unrounded confidence, the
reported confidence is rounded to two decimals. -/
def score_message (signals : List SignalType)
    (conversation_history : List HistEntry) : ScoreResult :=
  let is_first_message := conversation_history.isEmpty
  let confidence := calculate_confidence signals conversation_history is_first_message
  { confidence := round2 confidence, scamDetected := is_scam_detected confidence }

/-! ## String helpers (Python `str` operations on ASCII text) -/

/-- Text as a list of characters. -/
abbrev Chars := List Char

/-- Python `str.lower()` (all modelled texts are ASCII, where it agrees
with per-character `Char.toLower`). -/
def lowerChars (s : Chars) : Chars := s.map Char.toLower

/-- `needle` occurs at the start of `hay`. -/
def isPrefixChars : Chars → Chars → Bool
  | [], _ => true
  | _ :: _, [] => false
  | n :: ns, h :: hs => n == h && isPrefixChars ns hs

/-- Python's substring test `needle in hay`. -/
def containsSub (hay needle : Chars) : Bool :=
  isPrefixChars needle hay ||
    match hay with
    | [] => false
    | _ :: t => containsSub t needle

/-- Python `\w` for ASCII: letters, digits, underscore. -/
def isWordChar (c : Char) : Bool := c.isAlpha || c.isDigit || c == '_'

/-- Python `str.strip()`. -/
def trimWs (s : Chars) : Chars :=
  ((s.dropWhile Char.isWhitespace).reverse.dropWhile Char.isWhitespace).reverse

/-- Helper of `splitWs`: `acc` is the reversed current word. -/
def splitWsAux : Chars → Chars → List Chars
  | [], acc => if acc.isEmpty then [] else [acc.reverse]
  | c :: rest, acc =>
    if c.isWhitespace then
      if acc.isEmpty then splitWsAux rest [] else acc.reverse :: splitWsAux rest []
    else splitWsAux rest (c :: acc)

/-- Python `str.split()` with no argument: split on whitespace runs,
discarding empty words. -/
def splitWs (s : Chars) : List Chars := splitWsAux s []

/-! ## A small regular-expression engine

`re.search(pattern, text)` with `re.IGNORECASE` for the handful of
genuinely structural patterns of rules.py.  The AST mirrors each source
pattern; matching is a standard fuel-bounded backtracking search, adequate
because every use in this file is on a concrete short string. -/

/-- Regex AST: empty word, literal char, char class, `.`, concatenation,
alternation, bounded/unbounded repetition `{lo,hi}`, and the word
boundary `\b`. -/
inductive RE where
  | eps
  | chr (c : Char)
  | cls (p : Char → Bool)
  | dot
  | cat (a b : RE)
  | alt (a b : RE)
  | rep (a : RE) (lo : Nat) (hi : Option Nat)
  | wb

/-- Case-insensitive literal char comparison (`re.IGNORECASE`). -/
def chEq (p c : Char) : Bool := p.toLower == c.toLower

/-- Case-insensitive class test: the char or one of its case variants is
in the class (`re.IGNORECASE` on ASCII). -/
def clsMem (p : Char → Bool) (c : Char) : Bool := p c || p c.toLower || p c.toUpper

/-- Is this position a `\b` boundary, given the previous char (if any)
and the rest of the input? -/
def atBoundary (prev : Option Char) (rest : Chars) : Bool :=
  let left := match prev with | none => false | some c => isWordChar c
  let right := match rest with | [] => false | c :: _ => isWordChar c
  left != right

/-- Fuel-bounded CPS matcher: try to match `r` at the current position
(`prev` = char just before it, `s` = rest of input), then run the
continuation `k`. -/
def reM : Nat → RE → Option Char → Chars → (Option Char → Chars → Bool) → Bool
  | 0, _, _, _, _ => false
  | _ + 1, .eps, prev, s, k => k prev s
  | _ + 1, .chr c, _, s, k =>
    match s with
    | [] => false
    | a :: rest => chEq c a && k (some a) rest
  | _ + 1, .cls p, _, s, k =>
    match s with
    | [] => false
    | a :: rest => clsMem p a && k (some a) rest
  | _ + 1, .dot, _, s, k =>
    match s with
    | [] => false
    | a :: rest => !(a == '\n') && k (some a) rest
  | n + 1, .cat a b, prev, s, k => reM n a prev s fun p' s' => reM n b p' s' k
  | n + 1, .alt a b, prev, s, k => reM n a prev s k || reM n b prev s k
  | n + 1, .rep a lo hi, prev, s, k =>
    match lo with
    | m + 1 => reM n a prev s fun p' s' => reM n (.rep a m (hi.map (· - 1))) p' s' k
    | 0 =>
      match hi with
      | some 0 => k prev s
      | _ => k prev s || reM n a prev s fun p' s' => reM n (.rep a 0 (hi.map (· - 1))) p' s' k
  | _ + 1, .wb, prev, s, k => atBoundary prev s && k prev s

/-- Structural size of a regex, for the fuel bound. -/
def RE.size : RE → Nat
  | .eps | .chr _ | .cls _ | .dot | .wb => 1
  | .cat a b | .alt a b => a.size + b.size + 1
  | .rep a _ _ => a.size + 2

/-- Try a match at every start position (`re.search`). -/
def reSearchAux (fuel : Nat) (r : RE) : Option Char → Chars → Bool
  | prev, s =>
    reM fuel r prev s (fun _ _ => true) ||
      match s with
      | [] => false
      | c :: rest => reSearchAux fuel r (some c) rest

/-- `re.search(r, s) is not None`, with fuel ample for every concrete use
in this file. -/
def reSearch (r : RE) (s : Chars) : Bool :=
  reSearchAux ((s.length + 2) * (r.size + 2)) r none s

/-- A literal sequence of chars as a regex. -/
def rLit (s : String) : RE :=
  s.toList.foldr (fun c r => RE.cat (.chr c) r) .eps

/-- Concatenation of a pattern list. -/
def rCat (rs : List RE) : RE := rs.foldr RE.cat .eps

/-- Alternation `(p1|p2|...)`; the empty list (never used) is a
never-matching class. -/
def rAlt : List RE → RE
  | [] => .cls fun _ => false
  | [r] => r
  | r :: rs => .alt r (rAlt rs)

/-- Alternation of literal words. -/
def rAltLit (ss : List String) : RE := rAlt (ss.map rLit)

/-- `\d`. -/
def rDigit : RE := .cls Char.isDigit

/-- `\s` (modelled texts are ASCII; Lean's `Char.isWhitespace` covers the
whitespace chars they use). -/
def rSpace : RE := .cls Char.isWhitespace

/-- `\S`. -/
def rNonSpace : RE := .cls fun c => !c.isWhitespace

/-- `.{lo,hi}`. -/
def rDots (lo hi : Nat) : RE := .rep .dot lo (some hi)

/-- `[0-9a-fA-F]`. -/
def isHexChar (c : Char) : Bool :=
  c.isDigit || ('a' ≤ c && c ≤ 'f') || ('A' ≤ c && c ≤ 'F')

/-! ## rules.py — PatternRule tables

A pattern is either a literal keyword (matched as a case-insensitive
substring, which is both the `is_regex=False` semantics after the
source's `.lower()` normalisation and the `re.search`+`IGNORECASE`
semantics of a metacharacter-free pattern in an `is_regex=True` rule), or
a structural regex. -/

/-- One pattern of a `PatternRule`. -/
inductive Pat where
  | lit (s : String)
  | re (r : RE)

/-- `PatternRule`: a signal, its patterns, and its description. -/
structure PatternRule where
  signal : SignalType
  pats : List Pat
  description : String

/-- `PatternRule.matches`. -/
def ruleMatches (rule : PatternRule) (text : Chars) : Bool :=
  rule.pats.any fun p =>
    match p with
    | .lit s => containsSub (lowerChars text) (lowerChars s.toList)
    | .re r => reSearch r text

/-- `URGENCY_RULES` (rules.py). -/
def URGENCY_RULES : List PatternRule :=
  [ { signal := .urgency
    , pats := [.lit "urgent", .lit "urgently", .lit "immediate", .lit "immediately",
        .lit "asap", .lit "right now", .lit "hurry", .lit "quick", .lit "quickly",
        .lit "fast", .lit "tez", .lit "jaldi", .lit "turant"]
    , description := "General urgency keywords" }
  , { signal := .time_pressure
    , pats := [.re (rCat [.wb, rAltLit ["within", "in"], .rep rSpace 1 none,
          .rep rDigit 1 none, .rep rSpace 1 none,
          rAltLit ["hour", "hours", "minute", "minutes", "min", "mins", "hr", "hrs"], .wb]),
        .re (rCat [.wb, rLit "today", .wb]),
        .re (rCat [.wb, rLit "tonite", .wb]),
        .re (rCat [.wb, rLit "tonight", .wb]),
        .re (rCat [.wb, rAltLit ["by", "before"], .rep rSpace 1 none,
          rAltLit ["today", "tonight", "tomorrow", "end of day"], .wb]),
        .lit "expire", .lit "expiring", .lit "expiry", .lit "limited time", .lit "last chance"]
    , description := "Time-based pressure" }
  , { signal := .deadline
    , pats := [.lit "deadline", .lit "time limit", .lit "countdown", .lit "last day",
        .lit "final notice", .lit "before midnight", .lit "by end of", .lit "must complete by"]
    , description := "Deadline-based threats" }
  , { signal := .immediate_action
    , pats := [.lit "act now", .lit "take action", .lit "respond now", .lit "reply immediately",
        .lit "do it now", .lit "submit now", .lit "verify now", .lit "update now", .lit "confirm now"]
    , description := "Demands for immediate action" } ]

/-- `ACCOUNT_THREAT_RULES` (rules.py). -/
def ACCOUNT_THREAT_RULES : List PatternRule :=
  [ { signal := .account_threat
    , pats := [.lit "account blocked", .lit "account suspended", .lit "account locked",
        .lit "account closed", .lit "account deactivated", .lit "account will be",
        .lit "will block", .lit "will suspend", .lit "avoid suspension", .lit "avoid blocking",
        .lit "avoid closure", .lit "prevent suspension",
        .lit "खाता ब्लॉक", .lit "खाता बंद", .lit "account band", .lit "block ho jayega"]
    , description := "Account threat keywords" }
  , { signal := .account_suspension
    , pats := [.re (rCat [rAltLit ["account", "card", "service"], rDots 0 20,
          rAltLit ["suspend", "block", "lock", "close", "deactivat", "disable"]]),
        .re (rCat [rAltLit ["suspend", "block", "lock", "close", "deactivat", "disable"],
          rDots 0 20, rAltLit ["account", "card", "service"]]),
        .re (rCat [rAltLit ["avoid", "prevent", "stop"], rDots 0 15,
          rAltLit ["suspension", "blocking", "closure", "deactivation"]]),
        .lit "avoid suspension", .lit "prevent blocking", .lit "stop deactivation",
        .lit "account suspension"]
    , description := "Account suspension patterns" }
  , { signal := .kyc_failure
    , pats := [.lit "kyc", .lit "kyc failed", .lit "kyc pending", .lit "kyc expired",
        .lit "kyc incomplete", .lit "kyc verification", .lit "update kyc", .lit "complete kyc",
        .lit "kyc update required", .lit "know your customer", .lit "customer verification failed"]
    , description := "KYC-related threats" }
  , { signal := .bank_impersonation
    , pats := [.re (rCat [.wb, rAltLit ["state bank", "sbi", "hdfc", "icici", "axis bank",
          "pnb", "bank of", "canara bank", "union bank"], .wb]),
        .re (rCat [.wb, rLit "your bank", .wb]),
        .re (rCat [.wb, rLit "our bank", .wb]),
        .re (rCat [.wb, rLit "banking ", rAltLit ["system", "service", "team"], .wb]),
        .lit "reserve bank", .lit "rbi", .lit "central bank", .lit "federal bank"]
    , description := "Bank impersonation" }
  , { signal := .government_impersonation
    , pats := [.lit "income tax", .lit "tax department", .lit "tax notice", .lit "government",
        .lit "govt", .lit "ministry", .lit "police", .lit "cybercrime",
        .lit "enforcement directorate", .lit "uidai", .lit "aadhaar", .lit "pan card",
        .lit "passport office"]
    , description := "Government authority impersonation" }
  , { signal := .authority_impersonation
    , pats := [.lit "official", .lit "authorized", .lit "verified sender", .lit "department",
        .lit "customer care", .lit "customer support", .lit "technical support", .lit "helpdesk",
        .lit "\\b(from|this is).\x7b0,15\x7d(bank|government|police|tax|official)\\b"]
    , description := "General authority impersonation" } ]

/-- `PAYMENT_REQUEST_RULES` (rules.py).  The UPI rule has
`is_regex=False`, so its regex-looking pattern is a literal substring. -/
def PAYMENT_REQUEST_RULES : List PatternRule :=
  [ { signal := .upi_request
    , pats := [.lit "upi", .lit "upi id", .lit "upi pin", .lit "google pay", .lit "gpay",
        .lit "phonepe", .lit "paytm", .lit "bhim", .lit "payment id", .lit "vpa",
        .lit "virtual payment", .lit "[a-zA-Z0-9._-]+@[a-zA-Z]+",
        .lit "send payment", .lit "make payment", .lit "pay via upi"]
    , description := "UPI and payment ID requests" }
  , { signal := .otp_request
    , pats := [.re (rCat [.wb, rLit "otp", .wb]),
        .lit "one time password", .lit "one-time password", .lit "verification code",
        .lit "security code", .lit "authentication code", .lit "sms code", .lit "text code",
        .re (rCat [.wb, .rep rDigit 4 (some 4), .wb, .rep .dot 0 none, rLit "code"]),
        .re (rCat [.wb, .rep rDigit 6 (some 6), .wb, .rep .dot 0 none, rLit "code"]),
        .lit "share otp", .lit "send otp", .lit "enter otp"]
    , description := "OTP/verification code requests" }
  , { signal := .account_number_request
    , pats := [.lit "account number", .lit "bank account", .lit "account no", .lit "acct no",
        .lit "a/c number", .lit "ifsc", .lit "ifsc code", .lit "routing number", .lit "sort code",
        .re (rCat [.wb, rLit "account", .rep rSpace 0 none, .chr '#']),
        .lit "provide account", .lit "share account"]
    , description := "Bank account number requests" }
  , { signal := .card_details_request
    , pats := [.lit "card number", .lit "debit card", .lit "credit card", .lit "card details",
        .lit "cvv", .lit "cvc", .lit "card expiry", .lit "expiry date", .lit "card pin",
        .lit "atm pin",
        .re (rCat [.rep rDigit 4 (some 4),
          .rep (.cls fun c => c.isWhitespace || c == '-') 0 (some 1), .rep rDigit 4 (some 4),
          .rep (.cls fun c => c.isWhitespace || c == '-') 0 (some 1), .rep rDigit 4 (some 4),
          .rep (.cls fun c => c.isWhitespace || c == '-') 0 (some 1), .rep rDigit 4 (some 4)]),
        .lit "16 digit", .lit "card info"]
    , description := "Card details requests" }
  , { signal := .pin_request
    , pats := [.re (rCat [.wb, rLit "pin", .wb]),
        .lit "atm pin", .lit "card pin", .lit "security pin", .lit "personal identification",
        .lit "enter pin", .lit "share pin", .lit "provide pin", .lit "send pin",
        .lit "what is your pin"]
    , description := "PIN requests" }
  , { signal := .payment_request
    , pats := [.lit "send money", .lit "transfer money", .lit "make payment", .lit "pay now",
        .lit "payment required", .lit "deposit", .lit "remit", .lit "wire transfer",
        .lit "send funds", .lit "transfer funds",
        .re (rCat [rLit "pay", .rep rSpace 1 none, .rep (rAltLit ["rs", "inr", "₹"]) 0 (some 1),
          .rep rSpace 0 none, .rep rDigit 1 none]),
        .lit "paisa bhejo", .lit "paise send"]
    , description := "General payment requests" } ]

/-- `PHISHING_RULES` (rules.py). -/
def PHISHING_RULES : List PatternRule :=
  [ { signal := .suspicious_link
    , pats := [.re (rCat [rLit "http", .rep (.chr 's') 0 (some 1), rLit "://",
          .rep (rAlt [.cls Char.isAlpha, .cls Char.isDigit,
            .cls fun c => ('$' ≤ c && c ≤ '_') || c == '@' || c == '.' || c == '&' || c == '+',
            .cls fun c => c == '!' || c == '*' || c == '\\' || c == '(' || c == ')' || c == ',',
            rCat [.chr '%', .cls isHexChar, .cls isHexChar]]) 1 none]),
        .re (rCat [rLit "www.", .rep (.cls fun c => c.isAlphanum || c == '-') 1 none, .chr '.',
          .rep (.cls fun c => 'a' ≤ c && c ≤ 'z') 2 none]),
        .lit "click here", .lit "click link", .lit "visit link", .lit "open link", .lit "tap link"]
    , description := "URLs and link requests" }
  , { signal := .shortened_url
    , pats := [.re (rCat [.wb, rAltLit ["bit.ly", "goo.gl", "tinyurl", "short.link", "t.co",
          "ow.ly", "is.gd", "buff.ly"], .chr '/', .rep rNonSpace 1 none]),
        .re (rCat [.wb, rLit "http", .rep (.chr 's') 0 (some 1), rLit "://",
          .rep (.cls fun c => ('a' ≤ c && c ≤ 'z') || c.isDigit || c == '-') 1 (some 10),
          .chr '.', .rep (.cls fun c => 'a' ≤ c && c ≤ 'z') 2 (some 3), .chr '/',
          .rep (.cls Char.isAlphanum) 1 none, .wb])]
    , description := "Shortened URL patterns" }
  , { signal := .login_request
    , pats := [.lit "login", .lit "log in", .lit "sign in", .lit "signin", .lit "log into",
        .lit "enter credentials", .lit "username and password", .lit "login details"]
    , description := "Login credential requests" }
  , { signal := .verify_link
    , pats := [.lit "verify your", .lit "verify account", .lit "verify identity",
        .lit "verification link", .lit "confirm your", .lit "validate your",
        .lit "authenticate your",
        .re (rCat [rLit "verify", rDots 0 20, rAltLit ["click", "link", "here"]]),
        .re (rCat [rAltLit ["click", "link"], rDots 0 20, rLit "verify"])]
    , description := "Verification link patterns" }
  , { signal := .misspelled_domain
    , pats := [.re (rCat [.wb, rAltLit ["gooogle", "yaahoo", "amazzon", "paypai", "microosft",
          "bankofindia", "statebank"], .wb]),
        .re (rCat [.wb, .rep (.cls fun c => 'a' ≤ c && c ≤ 'z') 1 none, rLit "-secure.",
          rAltLit ["com", "net", "org"], .wb]),
        .re (rCat [.wb, rLit "verify-", .rep (.cls fun c => 'a' ≤ c && c ≤ 'z') 1 none,
          .chr '.', rAltLit ["com", "net"], .wb])]
    , description := "Common domain misspellings" } ]

/-- `all_rules` as combined in `detect_signals` (rules.py line 387). -/
def all_rules : List PatternRule :=
  URGENCY_RULES ++ ACCOUNT_THREAT_RULES ++ PAYMENT_REQUEST_RULES ++ PHISHING_RULES

/-! ## rules.py — conversation pattern detection -/

/-- `_text_similarity`: word-set Jaccard similarity of two texts. -/
def text_similarity (text1 text2 : String) : ℚ :=
  let words1 := (splitWs (lowerChars text1.toList)).dedup
  let words2 := (splitWs (lowerChars text2.toList)).dedup
  if words1.isEmpty || words2.isEmpty then 0
  else
    let intersection := words1.filter (· ∈ words2)
    let union := (words1 ++ words2).dedup
    if union.isEmpty then 0 else (intersection.length : ℚ) / union.length

/-- Python `l[-n:]`. -/
def lastN (n : Nat) (l : List α) : List α := l.drop (l.length - n)

/-- The loop of `detect_repetition`: some adjacent pair has similarity
strictly above 0.8. -/
def anyAdjacentSimilar : List String → Bool
  | a :: b :: rest => decide ((4:ℚ)/5 < text_similarity a b) || anyAdjacentSimilar (b :: rest)
  | _ => false

/-- `detect_repetition` (rules.py): adjacent pairs of the last three
messages, strict `> 0.8`. -/
def detect_repetition (messages : List String) : Bool :=
  if messages.length < 2 then false
  else anyAdjacentSimilar (lastN 3 messages)

/-- The `threat_keywords` list of `detect_escalation`. -/
def threat_keywords : List String :=
  ["block", "suspend", "close", "deactivate", "legal", "action",
   "police", "arrest", "fine", "penalty", "last chance", "final"]

/-- Count of threat keywords occurring in a message
(`sum(1 for keyword in threat_keywords if keyword in msg.lower())`). -/
def threatCount (msg : String) : Nat :=
  (threat_keywords.filter fun kw => containsSub (lowerChars msg.toList) kw.toList).length

/-- `detect_escalation` (rules.py): the threat-keyword count of the last
message strictly exceeds that of the one before it. -/
def detect_escalation (messages : List String) : Bool :=
  if messages.length < 2 then false
  else
    match (messages.map threatCount).reverse with
    | a :: b :: _ => decide (b < a)
    | _ => false

/-- The seen-set loop of `detect_copy_paste`. -/
def dupLoop : List Chars → List Chars → Bool
  | [], _ => false
  | m :: rest, seen => if m ∈ seen then true else dupLoop rest (m :: seen)

/-- `detect_copy_paste` (rules.py): two messages are byte-identical after
`strip().lower()`. -/
def detect_copy_paste (messages : List String) : Bool :=
  if messages.length < 2 then false
  else dupLoop (messages.map fun m => lowerChars (trimWs m.toList)) []

/-- The `question_indicators` list of `detect_ignoring_questions`. -/
def question_indicators : List String :=
  ["?", "why", "what", "how", "who", "when", "which"]

/-- The `demand_indicators` list of `detect_ignoring_questions`. -/
def demand_indicators : List String :=
  ["send", "provide", "share", "give", "submit", "enter"]

/-- `msg.get("sender")`. -/
def entrySender : HistEntry → Option String
  | .dict s _ => s
  | .nonDict => none

/-- `msg.get("text", "")`.  (`nonDict` never reaches these accessors:
`detect_scam` has already raised on it.) -/
def entryText : HistEntry → String
  | .dict _ t => t.getD ""
  | .nonDict => ""

/-- The body of one iteration of `detect_ignoring_questions`: a user
question at position `i` followed by a reply that shares none of the
question's first five words and contains a demand keyword. -/
def ignCheck (e0 e1 : HistEntry) : Bool :=
  if entrySender e0 == some "user" then
    let user_text := lowerChars (entryText e0).toList
    let has_question := question_indicators.any fun ind => containsSub user_text ind.toList
    if has_question then
      let next_msg := lowerChars (entryText e1).toList
      let scammer_ignores := !((splitWs user_text).take 5).any fun w => containsSub next_msg w
      let makes_demand := demand_indicators.any fun ind => containsSub next_msg ind.toList
      scammer_ignores && makes_demand
    else false
  else false

/-- The `for i in range(len(history) - 2)` loop of
`detect_ignoring_questions`: each step examines entries `i` and `i+1`
while at least three entries remain from `i`. -/
def ignLoop : List HistEntry → Bool
  | e0 :: e1 :: e2 :: rest => ignCheck e0 e1 || ignLoop (e1 :: e2 :: rest)
  | _ => false

/-- `detect_ignoring_questions` (rules.py). -/
def detect_ignoring_questions (conversation_history : List HistEntry) : Bool :=
  if conversation_history.length < 3 then false
  else ignLoop conversation_history

/-- The scammer-sent texts of the history
(`[msg.get("text", "") for msg in history if msg.get("sender") == "scammer"]`). -/
def scammerMessages (h : List HistEntry) : List String :=
  h.filterMap fun e =>
    match e with
    | .dict s t => if s == some "scammer" then some (t.getD "") else none
    | .nonDict => none

/-! ## rules.py — detect_signals -/

/-- Python dict assignment `d[k] = v` on an association list: replace an
existing binding, else append. -/
def dictInsert (d : List (String × String)) (k v : String) : List (String × String) :=
  if d.any (·.1 == k) then d.map fun p => if p.1 == k then (k, v) else p
  else d ++ [(k, v)]

/-- One step of the text-rule loop of `detect_signals`: a matching rule
contributes its signal and description once. -/
def ruleStep (text : Chars) (acc : List SignalType × List (String × String))
    (rule : PatternRule) : List SignalType × List (String × String) :=
  if ruleMatches rule text then
    if rule.signal ∈ acc.1 then acc
    else (acc.1 ++ [rule.signal], dictInsert acc.2 rule.signal.value rule.description)
  else acc

/-- One conversation-detector step of `detect_signals`: when the detector
fired, append its signal and record its explanation (the source appends
unconditionally; no conversation signal can already be present, as the
rule tables bind none of them). -/
def condAdd (c : Bool) (sig : SignalType) (desc : String)
    (acc : List SignalType × List (String × String)) :
    List SignalType × List (String × String) :=
  if c then (acc.1 ++ [sig], dictInsert acc.2 sig.value desc) else acc

/-- `detect_signals` (rules.py): the text-rule sweep in table order, then
(for a truthy history) the four conversation detectors in source order. -/
def detect_signals (text : String) (conversation_history : List HistEntry) :
    List SignalType × List (String × String) :=
  let init := all_rules.foldl (ruleStep text.toList) ([], [])
  if conversation_history.isEmpty then init
  else
    let scammer_messages := scammerMessages conversation_history ++ [text]
    condAdd (detect_ignoring_questions conversation_history) SignalType.ignoring_questions
      "Scammer ignores questions and repeats demands"
      (condAdd (detect_copy_paste scammer_messages) SignalType.copy_paste
        "Exact message repetition detected"
        (condAdd (detect_escalation scammer_messages) SignalType.escalation
          "Threat level escalating across conversation"
          (condAdd (detect_repetition scammer_messages) SignalType.repetition
            "Scammer is repeating similar messages" init)))

/-! ## detector.py — orchestrator -/

/-- The `conversationHistory` field of the input dict: absent, present
but not a list (with its Python truthiness), or a list of entries. -/
inductive HistVal where
  | missing
  | notList (truthy : Bool)
  | ofList (entries : List HistEntry)
deriving DecidableEq

/-- `DetectionInput`: `text` is `none` when the key is missing.  The
`metadata` field is accepted and ignored by the source, so it is not
modelled. -/
structure DetectionInput where
  text : Option String
  conversationHistory : HistVal

/-- `DetectionResult` (output contract of `detect_scam`). -/
structure DetectionResult where
  scamDetected : Bool
  confidence : ℚ
  signals : List String
  explanation : List (String × String)
deriving DecidableEq

/-- The history list with which signals and scoring are computed:
a missing field defaults to `[]`; a truthy non-list is replaced by `[]`
(detector.py lines 57–58); a falsy non-list is kept by that branch but
every downstream use guards on truthiness first, so it behaves exactly
as `[]`. -/
def effective_history : HistVal → List HistEntry
  | .missing => []
  | .notList _ => []
  | .ofList es => es

/-- `detect_scam` (detector.py).  Python exceptions are `Except.error`:
the two `ValueError`s of validation, and the `AttributeError` that
`msg.get` raises inside `detect_signals` when a (truthy) history list
contains a non-dict entry. -/
def detect_scam (input : DetectionInput) : Except String DetectionResult :=
  match input.text with
  | none => .error "Input must contain 'text' field"
  | some text =>
    if (trimWs text.toList).isEmpty then .error "'text' must be a non-empty string"
    else
      let history := effective_history input.conversationHistory
      if !history.isEmpty && history.any (· == HistEntry.nonDict) then
        .error "AttributeError: 'int' object has no attribute 'get'"
      else
        let detected := detect_signals text history
        let scoring_result := score_message detected.1 history
        .ok { scamDetected := scoring_result.scamDetected
            , confidence := scoring_result.confidence
            , signals := detected.1.map SignalType.value
            , explanation := detected.2 }

/-- One item of the `batch_detect` output: a success result (no `error`
key) or the substituted error shape. -/
structure BatchItem where
  error : Option String
  scamDetected : Bool
  confidence : ℚ
  signals : List String
  explanation : List (String × String)
deriving DecidableEq

/-- `batch_detect` (detector.py): the per-item try/except loop. -/
def batch_detect : List DetectionInput → List BatchItem
  | [] => []
  | msg :: rest =>
    (match detect_scam msg with
     | .ok r =>
       { error := none, scamDetected := r.scamDetected, confidence := r.confidence,
         signals := r.signals, explanation := r.explanation }
     | .error e =>
       { error := some e, scamDetected := false, confidence := 0,
         signals := [], explanation := [] }) :: batch_detect rest

/-! ## Concrete inputs used in counterexamples and witnesses -/

/-- "Share your OTP" with empty history (spec Example A). -/
def exampleA : DetectionInput :=
  { text := some "Share your OTP", conversationHistory := .ofList [] }

/-- The text of the C1 counterexample: triggers exactly the urgency
keyword rule ("hurry") and the account-suspension regex ("card … lock"). -/
def c1text : String := "hurry, card locked"

/-- C1 counterexample input: the same scammer text repeated around a user
turn, so repetition and copy-paste fire and the turn multiplier is 1.4.
Raw confidence is 0.6965 < 0.70, which rounds to 0.70. -/
def c1input : DetectionInput :=
  { text := some c1text
  , conversationHistory := .ofList
      [ .dict (some "scammer") (some c1text)
      , .dict (some "user") (some "ok")
      , .dict (some "scammer") (some c1text) ] }

/-- Prior scammer turn of the C2 counterexample; it carries the same
`otp_request` signal as the final message. -/
def c2prior : String := "share the otp code now please"

/-- C2 counterexample: final message "Share your OTP" with that one
prior matching scammer turn. -/
def c2withHist : DetectionInput :=
  { text := some "Share your OTP"
  , conversationHistory := .ofList [.dict (some "scammer") (some c2prior)] }

/-- The prior turn scored on its own (to exhibit its matching signal). -/
def c2priorInput : DetectionInput :=
  { text := some c2prior, conversationHistory := .ofList [] }

/-- C3 counterexample: well-formed text, history is a list containing a
non-dict entry. -/
def c3badInput : DetectionInput :=
  { text := some "hello", conversationHistory := .ofList [.nonDict] }

/-! ## Claim C1 -/

/-- **C1, counterexample.**  The claim says `scamDetected` is true iff the
rounded confidence carried in the result is ≥ 0.70.  On `c1input` the
returned result has confidence 0.70 (the raw score 0.6965 rounded to two
decimals) and yet `scamDetected = false`, because the source takes the
threshold decision on the unrounded value. -/
theorem C1_counterexample :
    detect_scam c1input =
      .ok { scamDetected := false, confidence := 7/10
          , signals := ["urgency", "account_suspension", "repetition", "copy_paste"]
          , explanation :=
              [("urgency", "General urgency keywords"),
               ("account_suspension", "Account suspension patterns"),
               ("repetition", "Scammer is repeating similar messages"),
               ("copy_paste", "Exact message repetition detected")] } ∧
    ¬(false = true ↔ ((7:ℚ)/10 ≤ 7/10)) := by
  constructor
  · with_unfolding_all rfl
  · intro h
    exact absurd (h.mpr le_rfl) (by decide)

/-- The unrounded confidence the pipeline computes for an input, before
`score_message` rounds it for output (the branches mirror `detect_scam`). -/
def raw_confidence (input : DetectionInput) : ℚ :=
  match input.text with
  | none => 0
  | some text =>
    let history := effective_history input.conversationHistory
    calculate_confidence (detect_signals text history).1 history history.isEmpty

/-- **C1, amended.**  For every accepted input, `scamDetected` holds iff
the *unrounded* confidence is ≥ 0.70; the confidence carried in the
result is that value rounded to two decimals (so the reported number can
read 0.70 while `scamDetected` is false). -/
theorem C1_amended (input : DetectionInput) (r : DetectionResult)
    (hok : detect_scam input = .ok r) :
    (r.scamDetected = true ↔ SCAM_DETECTION_THRESHOLD ≤ raw_confidence input) ∧
    r.confidence = round2 (raw_confidence input) := by
  rcases input with ⟨text, ch⟩
  cases text with
  | none => exact absurd hok (by simp [detect_scam])
  | some t =>
    have hok' : (if (trimWs t.toList).isEmpty then
          (Except.error "'text' must be a non-empty string" : Except String DetectionResult)
        else if (!(effective_history ch).isEmpty &&
            (effective_history ch).any (· == HistEntry.nonDict)) then
          Except.error "AttributeError: 'int' object has no attribute 'get'"
        else
          Except.ok
            { scamDetected := (score_message (detect_signals t (effective_history ch)).1
                (effective_history ch)).scamDetected
            , confidence := (score_message (detect_signals t (effective_history ch)).1
                (effective_history ch)).confidence
            , signals := (detect_signals t (effective_history ch)).1.map SignalType.value
            , explanation := (detect_signals t (effective_history ch)).2 })
        = Except.ok r := hok
    split at hok'
    · simp at hok'
    · split at hok'
      · simp at hok'
      · rw [Except.ok.injEq] at hok'
        subst hok'
        constructor
        · simp [score_message, raw_confidence, is_scam_detected, decide_eq_true_iff]
        · simp [score_message, raw_confidence]

/-- C1 amended witness input: a message triggering only the urgency rule
(confidence 0.12). -/
def c1witnessInput : DetectionInput :=
  { text := some "urgent", conversationHistory := .ofList [] }

/-- Witness for C1 amended at a concrete accepted input. -/
theorem C1_amended_witness :
    ((false = true ↔ SCAM_DETECTION_THRESHOLD ≤ raw_confidence c1witnessInput) ∧
      (12:ℚ)/100 = round2 (raw_confidence c1witnessInput)) :=
  C1_amended c1witnessInput
    { scamDetected := false, confidence := 12/100, signals := ["urgency"]
    , explanation := [("urgency", "General urgency keywords")] }
    (by with_unfolding_all rfl)

/-! ## Claim C5 -/

/-- **C5, counterexample.**  The claim names exactly three signals for the
1.3 multiplier, but the source's high-severity set also contains
`account_number_request`: that signal alone already gets the 1.3
multiplier (score 0.30 × 1.3 = 0.39). -/
theorem C5_counterexample :
    has_high_severity_signals [SignalType.account_number_request] = true ∧
    (SignalType.account_number_request ∉
      ([.otp_request, .pin_request, .card_details_request] : List SignalType)) ∧
    score_after_combo [SignalType.account_number_request] = (3:ℚ)/10 * (13/10) := by
  refine ⟨by decide, by decide, by with_unfolding_all decide⟩

/-- **C5, amended.**  The running score is multiplied by 1.3 iff the
triggered set contains one of the *four* signals `otp_request`,
`pin_request`, `card_details_request`, `account_number_request`. -/
theorem C5_amended (s : List SignalType) :
    has_high_severity_signals s = true ↔
      SignalType.otp_request ∈ s ∨ SignalType.pin_request ∈ s ∨
        SignalType.card_details_request ∈ s ∨ SignalType.account_number_request ∈ s := by
  simp only [has_high_severity_signals, List.any_eq_true, decide_eq_true_eq]
  constructor
  · rintro ⟨x, hx, hmem⟩
    rcases (by decide :
        ∀ y : SignalType, y ∈ high_severity_set →
          y = SignalType.otp_request ∨ y = SignalType.pin_request ∨
            y = SignalType.card_details_request ∨ y = SignalType.account_number_request)
        x hmem with rfl | rfl | rfl | rfl
    · exact Or.inl hx
    · exact Or.inr (Or.inl hx)
    · exact Or.inr (Or.inr (Or.inl hx))
    · exact Or.inr (Or.inr (Or.inr hx))
  · rintro (h | h | h | h)
    · exact ⟨_, h, by decide⟩
    · exact ⟨_, h, by decide⟩
    · exact ⟨_, h, by decide⟩
    · exact ⟨_, h, by decide⟩

/-! ## Claim C6 -/

/-- The classic-combo condition as the specification words it: some
payment-*category* signal together with an account-threat or
authority-impersonation signal. -/
def spec_classic_combo (s : List SignalType) : Bool :=
  (s.any fun sig => get_signal_category sig = SignalCategory.payment) &&
    (s.any (· ∈ combo_threat_set) || s.any (· ∈ combo_authority_set))

/-- **C6, counterexample.**  `payment_request` is a payment-category
signal co-occurring here with the account-threat signal
`account_threat`, so the claim requires the 1.25 multiplier; the
source's combo payment set omits `payment_request`, so the multiplier is
not applied (score stays 0.42 = 0.18 + 0.09 + 0.15). -/
theorem C6_counterexample :
    is_classic_scam_combo [SignalType.payment_request, SignalType.account_threat] = false ∧
    spec_classic_combo [SignalType.payment_request, SignalType.account_threat] = true ∧
    get_signal_category SignalType.payment_request = SignalCategory.payment ∧
    SignalType.account_threat ∈ combo_threat_set ∧
    score_after_combo [SignalType.payment_request, SignalType.account_threat] = 42/100 := by
  refine ⟨by decide, by decide, by decide, by decide, by with_unfolding_all decide⟩

/-- **C6, amended.**  The 1.25 multiplier applies iff one of the five
signals `upi_request`, `account_number_request`, `otp_request`,
`pin_request`, `card_details_request` (payment category *minus*
`payment_request`) co-occurs with an account-threat signal
(`account_threat`, `account_suspension`, `kyc_failure`) or an
authority-impersonation signal (`bank_impersonation`,
`authority_impersonation`, `government_impersonation`). -/
theorem C6_amended (s : List SignalType) :
    is_classic_scam_combo s = true ↔
      ((SignalType.upi_request ∈ s ∨ SignalType.account_number_request ∈ s ∨
          SignalType.otp_request ∈ s ∨ SignalType.pin_request ∈ s ∨
          SignalType.card_details_request ∈ s) ∧
        ((SignalType.account_threat ∈ s ∨ SignalType.account_suspension ∈ s ∨
            SignalType.kyc_failure ∈ s) ∨
          (SignalType.bank_impersonation ∈ s ∨ SignalType.authority_impersonation ∈ s ∨
            SignalType.government_impersonation ∈ s))) := by
  have pay : ∀ x : SignalType, x ∈ combo_payment_set ↔
      (x = SignalType.upi_request ∨ x = SignalType.account_number_request ∨
        x = SignalType.otp_request ∨ x = SignalType.pin_request ∨
        x = SignalType.card_details_request) := by decide
  have thr : ∀ x : SignalType, x ∈ combo_threat_set ↔
      (x = SignalType.account_threat ∨ x = SignalType.account_suspension ∨
        x = SignalType.kyc_failure) := by decide
  have auth : ∀ x : SignalType, x ∈ combo_authority_set ↔
      (x = SignalType.bank_impersonation ∨ x = SignalType.authority_impersonation ∨
        x = SignalType.government_impersonation) := by decide
  simp only [is_classic_scam_combo, Bool.or_eq_true, Bool.and_eq_true, List.any_eq_true,
    decide_eq_true_eq]
  constructor
  · rintro (⟨⟨x, hx, hp⟩, ⟨y, hy, ht⟩⟩ | ⟨⟨x, hx, hp⟩, ⟨y, hy, ha⟩⟩)
    · refine ⟨?_, Or.inl ?_⟩
      · rcases (pay x).mp hp with rfl | rfl | rfl | rfl | rfl <;> tauto
      · rcases (thr y).mp ht with rfl | rfl | rfl <;> tauto
    · refine ⟨?_, Or.inr ?_⟩
      · rcases (pay x).mp hp with rfl | rfl | rfl | rfl | rfl <;> tauto
      · rcases (auth y).mp ha with rfl | rfl | rfl <;> tauto
  · rintro ⟨hp, ht | ha⟩
    · refine Or.inl ⟨?_, ?_⟩
      · rcases hp with h | h | h | h | h
        · exact ⟨_, h, by decide⟩
        · exact ⟨_, h, by decide⟩
        · exact ⟨_, h, by decide⟩
        · exact ⟨_, h, by decide⟩
        · exact ⟨_, h, by decide⟩
      · rcases ht with h | h | h
        · exact ⟨_, h, by decide⟩
        · exact ⟨_, h, by decide⟩
        · exact ⟨_, h, by decide⟩
    · refine Or.inr ⟨?_, ?_⟩
      · rcases hp with h | h | h | h | h
        · exact ⟨_, h, by decide⟩
        · exact ⟨_, h, by decide⟩
        · exact ⟨_, h, by decide⟩
        · exact ⟨_, h, by decide⟩
        · exact ⟨_, h, by decide⟩
      · rcases ha with h | h | h
        · exact ⟨_, h, by decide⟩
        · exact ⟨_, h, by decide⟩
        · exact ⟨_, h, by decide⟩

/-! ## Claim C2 — escalation monotonicity

The first-message cap can *raise* a lone-critical-signal score to the
0.70 floor, and that floor is skipped as soon as the history is
non-empty; every other branch of the scoring pipeline is monotone.  The
lemmas below establish the monotone part. -/

/-- Shifting the starting index of the decayed sum halves it. -/
theorem decaySum_shift (l : List ℚ) : ∀ n : Nat, decaySum l (n + 1) = (1/2) * decaySum l n := by
  induction l with
  | nil => intro n; simp [decaySum]
  | cons w ws ih =>
    intro n
    simp only [decaySum, ih (n + 1)]
    ring

/-- The decayed sum of nonnegative weights is nonnegative. -/
theorem decaySum_nonneg (l : List ℚ) (hl : ∀ w ∈ l, 0 ≤ w) : ∀ n : Nat, 0 ≤ decaySum l n := by
  induction l with
  | nil => intro n; simp [decaySum]
  | cons w ws ih =>
    intro n
    have hw : 0 ≤ w := hl w (by simp)
    have hws : 0 ≤ decaySum ws (n + 1) := ih (fun x hx => hl x (by simp [hx])) (n + 1)
    have hp : (0:ℚ) ≤ (1/2) ^ n := by positivity
    simp only [decaySum]
    nlinarith

/-- If every element of the tail is at most `b`, the decayed tail sum
from index 1 is at most `b`. -/
theorem decaySum_le_bound (l : List ℚ) (b : ℚ) (hb : 0 ≤ b) (hl : ∀ w ∈ l, w ≤ b) :
    decaySum l 1 ≤ b := by
  induction l with
  | nil => simpa [decaySum] using hb
  | cons w ws ih =>
    have hw : w ≤ b := hl w (by simp)
    have hws : decaySum ws 1 ≤ b := ih (fun x hx => hl x (by simp [hx]))
    have h2 : decaySum ws 2 = (1/2) * decaySum ws 1 := decaySum_shift ws 1
    simp only [decaySum, pow_one] at *
    linarith

/-- Inserting a nonnegative weight into a descending-sorted nonnegative
list does not decrease the decayed sum. -/
theorem decaySum_orderedInsert_le (v : ℚ) (hv : 0 ≤ v) :
    ∀ l : List ℚ, l.Sorted (· ≥ ·) → (∀ w ∈ l, 0 ≤ w) →
      decaySum l 0 ≤ decaySum (l.orderedInsert (· ≥ ·) v) 0 := by
  intro l
  induction l with
  | nil =>
    intro _ _
    simpa [List.orderedInsert, decaySum] using hv
  | cons w ws ih =>
    intro hsort hpos
    rcases List.sorted_cons.mp hsort with ⟨hle, htail⟩
    have hw : 0 ≤ w := hpos w (by simp)
    by_cases hvw : v ≥ w
    · have hins : (w :: ws).orderedInsert (· ≥ ·) v = v :: w :: ws := by
        simp [List.orderedInsert, hvw]
      rw [hins]
      have hbound : decaySum ws 1 ≤ w := decaySum_le_bound ws w hw hle
      have h1 : decaySum (w :: ws) 1 = (1/2) * decaySum (w :: ws) 0 := decaySum_shift _ 0
      simp only [decaySum, pow_zero, one_mul, pow_one] at *
      linarith
    · have hins : (w :: ws).orderedInsert (· ≥ ·) v = w :: ws.orderedInsert (· ≥ ·) v := by
        simp [List.orderedInsert, hvw]
      rw [hins]
      have ih' := ih htail (fun x hx => hpos x (by simp [hx]))
      have h1 : decaySum (ws.orderedInsert (· ≥ ·) v) 1 =
          (1/2) * decaySum (ws.orderedInsert (· ≥ ·) v) 0 := decaySum_shift _ 0
      have h2 : decaySum ws 1 = (1/2) * decaySum ws 0 := decaySum_shift _ 0
      simp only [decaySum, pow_zero, one_mul] at *
      linarith

/-- `calculate_base_score` as a decayed sum over the sorted weights. -/
theorem calculate_base_score_eq (s : List SignalType) :
    calculate_base_score s =
      decaySum ((s.map get_signal_weight).insertionSort (· ≥ ·)) 0 := by
  unfold calculate_base_score
  cases hs : (s.map get_signal_weight).insertionSort (· ≥ ·) with
  | nil => simp [decaySum]
  | cons w ws => simp [decaySum]

/-- Every signal weight of the catalog is nonnegative. -/
theorem get_signal_weight_nonneg (sig : SignalType) : 0 ≤ get_signal_weight sig := by
  cases sig <;> norm_num [get_signal_weight]

/-- Sorting a list of weights preserves membership bounds. -/
theorem mem_insertionSort_weights {s : List SignalType} {w : ℚ}
    (hw : w ∈ (s.map get_signal_weight).insertionSort (· ≥ ·)) : 0 ≤ w := by
  have : w ∈ s.map get_signal_weight :=
    (List.perm_insertionSort (· ≥ ·) (s.map get_signal_weight)).mem_iff.mp hw
  rcases List.mem_map.mp this with ⟨sig, _, rfl⟩
  exact get_signal_weight_nonneg sig

/-- The base score is nonnegative. -/
theorem calculate_base_score_nonneg (s : List SignalType) : 0 ≤ calculate_base_score s := by
  rw [calculate_base_score_eq]
  exact decaySum_nonneg _ (fun w hw => mem_insertionSort_weights hw) 0

/-- Sorting is invariant under permutation of the input. -/
theorem insertionSort_congr_perm (l l' : List ℚ) (hp : List.Perm l l') :
    l.insertionSort (· ≥ ·) = l'.insertionSort (· ≥ ·) :=
  @List.eq_of_perm_of_sorted ℚ (· ≥ ·) _ _ _
    (((List.perm_insertionSort _ l).trans hp).trans (List.perm_insertionSort _ l').symm)
    (List.sorted_insertionSort _ l) (List.sorted_insertionSort _ l')

/-- Prepending weights never decreases the decayed sum of the sorted
list. -/
theorem decaySum_sort_prepend (l₂ l₁ : List ℚ)
    (h₁ : ∀ w ∈ l₁, 0 ≤ w) (h₂ : ∀ w ∈ l₂, 0 ≤ w) :
    decaySum (l₁.insertionSort (· ≥ ·)) 0 ≤
      decaySum ((l₂ ++ l₁).insertionSort (· ≥ ·)) 0 := by
  induction l₂ with
  | nil => simp
  | cons x xs ih =>
    have step : decaySum ((xs ++ l₁).insertionSort (· ≥ ·)) 0 ≤
        decaySum ((x :: (xs ++ l₁)).insertionSort (· ≥ ·)) 0 := by
      have : (x :: (xs ++ l₁)).insertionSort (· ≥ ·) =
          ((xs ++ l₁).insertionSort (· ≥ ·)).orderedInsert (· ≥ ·) x := rfl
      rw [this]
      apply decaySum_orderedInsert_le x (h₂ x (by simp))
      · exact List.sorted_insertionSort _ _
      · intro w hw
        have : w ∈ xs ++ l₁ :=
          (List.perm_insertionSort (· ≥ ·) (xs ++ l₁)).mem_iff.mp hw
        rcases List.mem_append.mp this with h | h
        · exact h₂ w (by simp [h])
        · exact h₁ w h
    exact le_trans (ih (fun w hw => h₂ w (by simp [hw]))) step

/-- Appending extra signals never decreases the base score. -/
theorem calculate_base_score_mono (s e : List SignalType) :
    calculate_base_score s ≤ calculate_base_score (s ++ e) := by
  rw [calculate_base_score_eq, calculate_base_score_eq]
  have hperm : List.Perm ((s ++ e).map get_signal_weight)
      (e.map get_signal_weight ++ s.map get_signal_weight) := by
    rw [List.map_append]
    exact List.perm_append_comm
  rw [insertionSort_congr_perm _ _ hperm]
  exact decaySum_sort_prepend (e.map get_signal_weight) (s.map get_signal_weight)
    (fun w hw => by rcases List.mem_map.mp hw with ⟨sig, _, rfl⟩; exact get_signal_weight_nonneg sig)
    (fun w hw => by rcases List.mem_map.mp hw with ⟨sig, _, rfl⟩; exact get_signal_weight_nonneg sig)

/-- Categories of a prefix are among the categories of the whole list. -/
theorem unique_categories_subset (s e : List SignalType) :
    unique_categories s ⊆ unique_categories (s ++ e) := by
  intro c hc
  simp only [unique_categories, List.mem_toFinset, List.mem_map] at *
  rcases hc with ⟨sig, hsig, rfl⟩
  exact ⟨sig, by simp [hsig], rfl⟩

/-- `List.any` is monotone under appending. -/
theorem any_append_left (s e : List SignalType) (p : SignalType → Bool)
    (h : s.any p = true) : (s ++ e).any p = true := by
  simp only [List.any_append, h, Bool.true_or]

/-- The post-combo score is nonnegative. -/
theorem score_after_combo_nonneg (s : List SignalType) : 0 ≤ score_after_combo s := by
  unfold score_after_combo
  have hb := calculate_base_score_nonneg s
  split_ifs <;> nlinarith

/-- Monotonicity of an optionally applied multiplicative boost: if the
condition is preserved, the boosted values stay ordered. -/
theorem ite_boost_mono {c c' : Prop} [Decidable c] [Decidable c'] {x y k : ℚ}
    (hxy : x ≤ y) (hx : 0 ≤ x) (himp : c → c') (hk : 1 ≤ k) :
    (if c then x * k else x) ≤ (if c' then y * k else y) := by
  split_ifs with h1 h2 h2
  · nlinarith
  · exact absurd (himp h1) h2
  · nlinarith
  · exact hxy

/-- An optionally boosted nonnegative value stays nonnegative. -/
theorem ite_boost_nonneg {c : Prop} [Decidable c] {x k : ℚ} (hx : 0 ≤ x) (hk : 0 ≤ k) :
    0 ≤ (if c then x * k else x) := by
  split_ifs
  · nlinarith
  · exact hx

/-- The post-combo score is monotone under appending extra signals. -/
theorem score_after_combo_mono (s e : List SignalType) :
    score_after_combo s ≤ score_after_combo (s ++ e) := by
  have hbase := calculate_base_score_mono s e
  have hb0 := calculate_base_score_nonneg s
  have hb0' := calculate_base_score_nonneg (s ++ e)
  have hcard : (unique_categories s).card ≤ (unique_categories (s ++ e)).card :=
    Finset.card_le_card (unique_categories_subset s e)
  have hdiv : (if 2 ≤ (unique_categories s).card then calculate_base_score s + 15/100
        else calculate_base_score s) ≤
      (if 2 ≤ (unique_categories (s ++ e)).card then calculate_base_score (s ++ e) + 15/100
        else calculate_base_score (s ++ e)) := by
    split_ifs with h1 h2
    · linarith
    · omega
    · linarith
    · linarith
  have hdiv0 : (0:ℚ) ≤ (if 2 ≤ (unique_categories s).card then calculate_base_score s + 15/100
      else calculate_base_score s) := by split_ifs <;> linarith
  have hhi : has_high_severity_signals s = true → has_high_severity_signals (s ++ e) = true :=
    fun hh => any_append_left s e _ hh
  have hcombo : is_classic_scam_combo s = true → is_classic_scam_combo (s ++ e) = true := by
    unfold is_classic_scam_combo
    simp only [Bool.or_eq_true, Bool.and_eq_true]
    rintro (⟨h1, h2⟩ | ⟨h1, h2⟩)
    · exact Or.inl ⟨any_append_left s e _ h1, any_append_left s e _ h2⟩
    · exact Or.inr ⟨any_append_left s e _ h1, any_append_left s e _ h2⟩
  simp only [score_after_combo]
  refine ite_boost_mono ?_ ?_ hcombo (by norm_num)
  · exact ite_boost_mono hdiv hdiv0 hhi (by norm_num)
  · exact ite_boost_nonneg hdiv0 (by norm_num)

/-- The turn multiplier is always at least 1. -/
theorem one_le_turn_multiplier (s : List SignalType) (h : List HistEntry) :
    1 ≤ calculate_turn_multiplier s h := by
  have hlen : (0:ℚ) ≤ (h.length : ℚ) := Nat.cast_nonneg _
  have hmin : (0:ℚ) ≤ min ((1/10) * (((h.length : ℚ) + 1) - 1)) (3/10) :=
    le_min (by nlinarith) (by norm_num)
  simp only [calculate_turn_multiplier]
  split_ifs with h1 h2
  · norm_num
  · exact le_min (by linarith) (by norm_num)
  · exact le_min (by linarith) (by norm_num)

/-- With the critical-signal floor branch excluded, the first-message cap
never increases the score. -/
theorem apply_first_message_cap_le (score : ℚ) (s : List SignalType)
    (hfloor : ¬(s.any (· ∈ critical_signals) = true ∧ has_pressure_signal s = false)) :
    apply_first_message_cap score s ≤ score := by
  simp only [apply_first_message_cap]
  by_cases h1 : (s.any (· ∈ critical_signals) && has_pressure_signal s) = true
  · rw [if_pos h1]
    exact min_le_left _ _
  · rw [if_neg h1]
    by_cases h2 : s.any (· ∈ critical_signals) = true
    · exfalso
      apply hfloor
      refine ⟨h2, ?_⟩
      cases hp : has_pressure_signal s with
      | false => rfl
      | true => exact absurd (by simp [h2, hp]) h1
    · rw [if_neg h2]
      split_ifs <;> exact min_le_left _ _

/-- `clamp01` is monotone. -/
theorem clamp01_mono {a b : ℚ} (hab : a ≤ b) : clamp01 a ≤ clamp01 b := by
  unfold clamp01
  exact min_le_min (max_le_max hab le_rfl) le_rfl

/-- `clamp01` is nonnegative. -/
theorem clamp01_nonneg (q : ℚ) : 0 ≤ clamp01 q := by
  unfold clamp01
  exact le_min (le_max_right q 0) (by norm_num)

/-- `round2` is monotone. -/
theorem round2_mono {a b : ℚ} (hab : a ≤ b) : round2 a ≤ round2 b := by
  unfold round2
  have h : round (a * 100) ≤ round (b * 100) := by
    rw [round_eq, round_eq]
    exact Int.floor_le_floor (by linarith)
  have h' : ((round (a * 100) : ℤ) : ℚ) ≤ ((round (b * 100) : ℤ) : ℚ) := by exact_mod_cast h
  linarith

/-- **C2, counterexample.**  "Share your OTP" with empty history scores
0.70 (lone-critical floor); the same message with one prior matching
scammer turn ("share the otp code now please", which itself triggers
`otp_request`) scores 0.57 < 0.70 — adding matching history decreased
the confidence. -/
theorem C2_counterexample :
    detect_scam exampleA =
      .ok { scamDetected := true, confidence := 7/10, signals := ["otp_request"]
          , explanation := [("otp_request", "OTP/verification code requests")] } ∧
    detect_scam c2withHist =
      .ok { scamDetected := false, confidence := 57/100, signals := ["otp_request"]
          , explanation := [("otp_request", "OTP/verification code requests")] } ∧
    detect_scam c2priorInput =
      .ok { scamDetected := true, confidence := 7/10, signals := ["otp_request"]
          , explanation := [("otp_request", "OTP/verification code requests")] } ∧
    (57:ℚ)/100 < 7/10 := by
  refine ⟨?_, ?_, ?_, by norm_num⟩
  · with_unfolding_all rfl
  · with_unfolding_all rfl
  · with_unfolding_all rfl

/-- **C2, amended.**  Moving from empty to non-empty history never
decreases confidence *except* through the lone-critical floor: for any
triggered set `s` that is not "critical signal present and no
pressure-category signal", and any extra (conversation) signals the
history contributes, the confidence with non-empty history is at least
the empty-history confidence. -/
theorem C2_amended (s extra : List SignalType) (h : List HistEntry)
    (hne : h ≠ [])
    (hfloor : ¬(s.any (· ∈ critical_signals) = true ∧ has_pressure_signal s = false)) :
    (score_message s []).confidence ≤ (score_message (s ++ extra) h).confidence := by
  have hisEmpty : h.isEmpty = false := by
    cases h with
    | nil => exact absurd rfl hne
    | cons a l => rfl
  have hempty : calculate_confidence s [] true =
      (if s = [] then 0 else clamp01 (apply_first_message_cap (score_after_combo s) s)) := by
    simp [calculate_confidence]
  have hfull : calculate_confidence (s ++ extra) h false =
      (if s ++ extra = [] then 0
       else clamp01 (score_after_combo (s ++ extra) *
         calculate_turn_multiplier (s ++ extra) h)) := by
    simp [calculate_confidence, hne]
  have hkey : calculate_confidence s [] true ≤ calculate_confidence (s ++ extra) h false := by
    rw [hempty, hfull]
    by_cases hs : s = []
    · rw [if_pos hs]
      split_ifs
      · exact le_refl 0
      · exact clamp01_nonneg _
    · have hse : s ++ extra ≠ [] := fun hc => hs (List.append_eq_nil.mp hc).1
      rw [if_neg hs, if_neg hse]
      refine clamp01_mono ?_
      have h1 : apply_first_message_cap (score_after_combo s) s ≤ score_after_combo s :=
        apply_first_message_cap_le _ s hfloor
      have h2 := score_after_combo_mono s extra
      have h3 : score_after_combo (s ++ extra) ≤
          score_after_combo (s ++ extra) * calculate_turn_multiplier (s ++ extra) h :=
        le_mul_of_one_le_right (score_after_combo_nonneg _) (one_le_turn_multiplier _ h)
      linarith
  calc (score_message s []).confidence
      = round2 (calculate_confidence s [] true) := rfl
    _ ≤ round2 (calculate_confidence (s ++ extra) h false) := round2_mono hkey
    _ = (score_message (s ++ extra) h).confidence := by
        simp [score_message, hisEmpty]

/-- Witness for C2 amended: a lone urgency signal, one history entry, no
extra signals (0.12 ≤ 0.13). -/
theorem C2_amended_witness :
    (score_message [SignalType.urgency] []).confidence ≤
      (score_message ([SignalType.urgency] ++ []) [HistEntry.dict (some "scammer") (some "hi")]).confidence :=
  C2_amended [SignalType.urgency] [] [HistEntry.dict (some "scammer") (some "hi")]
    (by simp) (by decide)

/-! ## Claim C3 -/

/-- **C3, counterexample.**  The claim says any malformed
`conversationHistory` is silently treated as empty and the call never
fails.  But only a non-*list* history is replaced: a history that *is* a
list yet contains a non-dict entry reaches `msg.get` inside
`detect_signals` and the call raises (`AttributeError`). -/
theorem C3_counterexample :
    (trimWs "hello".toList).isEmpty = false ∧
    (detect_scam c3badInput).isOk = false := by
  constructor
  · decide
  · decide

/-- **C3, amended.**  A `conversationHistory` that is present but not a
list (whatever its truthiness) is treated exactly as an empty history
and the call succeeds; a history that is a list of dict-shaped entries
(even with missing fields) also never fails.  A list containing a
non-dict entry, however, raises instead of being dropped. -/
theorem C3_amended (t : String) (b : Bool) (es : List HistEntry)
    (ht : (trimWs t.toList).isEmpty = false)
    (hes : HistEntry.nonDict ∉ es) :
    detect_scam { text := some t, conversationHistory := .notList b } =
      detect_scam { text := some t, conversationHistory := .ofList [] } ∧
    (detect_scam { text := some t, conversationHistory := .ofList es }).isOk = true := by
  constructor
  · rfl
  · have ht' : ¬(trimWs t.data = []) := by
      intro hc
      rw [show trimWs t.toList = trimWs t.data from rfl, hc] at ht
      simp at ht
    simp [detect_scam, ht', hes, effective_history, Except.isOk, Except.toBool]

/-- Witness for C3 amended at a concrete non-blank text, truthy non-list
history, and a one-entry dict-shaped history. -/
theorem C3_amended_witness :
    (detect_scam { text := some "hello", conversationHistory := .notList true } =
      detect_scam { text := some "hello", conversationHistory := .ofList [] }) ∧
    (detect_scam
        { text := some "hello"
        , conversationHistory := .ofList [.dict (some "scammer") (some "hi")] }).isOk = true :=
  C3_amended "hello" true [.dict (some "scammer") (some "hi")] (by decide) (by decide)

/-! ## Claim C4 -/

/-- **C4.**  For any empty-history input whose only triggered signal is
`otp_request` (in particular `text = "Share your OTP"`, see the witness),
the result has `scamDetected = true` and confidence within
[0.70, 0.80]: the first-message cap's lone-critical branch clamps the
score into that bracket. -/
theorem C4_critical_first_message (t : String) (r : DetectionResult)
    (hsig : (detect_signals t []).1 = [SignalType.otp_request])
    (hok : detect_scam { text := some t, conversationHistory := .ofList [] } = .ok r) :
    r.scamDetected = true ∧ (7:ℚ)/10 ≤ r.confidence ∧ r.confidence ≤ (8:ℚ)/10 := by
  have hscore : score_message [SignalType.otp_request] [] =
      { confidence := 7/10, scamDetected := true } := by with_unfolding_all decide
  have hok' : (if (trimWs t.toList).isEmpty then
        (Except.error "'text' must be a non-empty string" : Except String DetectionResult)
      else
        Except.ok
          { scamDetected := (score_message (detect_signals t []).1 []).scamDetected
          , confidence := (score_message (detect_signals t []).1 []).confidence
          , signals := (detect_signals t []).1.map SignalType.value
          , explanation := (detect_signals t []).2 })
      = Except.ok r := hok
  split at hok'
  · simp at hok'
  · rw [Except.ok.injEq] at hok'
    subst hok'
    refine ⟨?_, ?_, ?_⟩ <;> (simp [hsig, hscore]; try norm_num)

/-- The result of spec Example A. -/
def exampleAResult : DetectionResult :=
  { scamDetected := true, confidence := 7/10, signals := ["otp_request"]
  , explanation := [("otp_request", "OTP/verification code requests")] }

/-- Witness for C4 at `text = "Share your OTP"`, empty history
(spec Example A). -/
theorem C4_witness :
    exampleAResult.scamDetected = true ∧
    (7:ℚ)/10 ≤ exampleAResult.confidence ∧ exampleAResult.confidence ≤ (8:ℚ)/10 :=
  C4_critical_first_message "Share your OTP" exampleAResult
    (by with_unfolding_all decide) (by with_unfolding_all rfl)

/-! ## Where detected signals can come from -/

/-- A signal accumulated by the text-rule fold is in the starting
accumulator or bound by one of the rules. -/
theorem foldl_ruleStep_mem (text : Chars) :
    ∀ (rules : List PatternRule) (acc : List SignalType × List (String × String))
      (x : SignalType), x ∈ (rules.foldl (ruleStep text) acc).1 →
        x ∈ acc.1 ∨ x ∈ rules.map (·.signal) := by
  intro rules
  induction rules with
  | nil =>
    intro acc x hx
    exact Or.inl hx
  | cons r rs ih =>
    intro acc x hx
    rcases ih (ruleStep text acc r) x hx with h | h
    · unfold ruleStep at h
      split_ifs at h
      · exact Or.inl h
      · rcases List.mem_append.mp h with h' | h'
        · exact Or.inl h'
        · simp only [List.mem_singleton] at h'
          exact Or.inr (by simp [h'])
      · exact Or.inl h
    · exact Or.inr (by simp [h])

/-- The signals bound by the rule tables, in table order. -/
theorem all_rules_signals :
    all_rules.map (·.signal) =
      [SignalType.urgency, .time_pressure, .deadline, .immediate_action,
       .account_threat, .account_suspension, .kyc_failure, .bank_impersonation,
       .government_impersonation, .authority_impersonation,
       .upi_request, .otp_request, .account_number_request, .card_details_request,
       .pin_request, .payment_request,
       .suspicious_link, .shortened_url, .login_request, .verify_link,
       .misspelled_domain] := rfl

/-- Membership through one conversation-detector step. -/
theorem condAdd_mem (c : Bool) (sig x : SignalType) (desc : String)
    (acc : List SignalType × List (String × String)) :
    x ∈ (condAdd c sig desc acc).1 ↔ x ∈ acc.1 ∨ (c = true ∧ x = sig) := by
  unfold condAdd
  cases c with
  | false => simp
  | true => simp [List.mem_append]

/-- Anything `detect_signals` returns is a rule-table signal or one of
the four conversation-pattern signals. -/
theorem detect_signals_mem (t : String) (h : List HistEntry) (x : SignalType)
    (hx : x ∈ (detect_signals t h).1) :
    x ∈ all_rules.map (·.signal) ∨
      x ∈ [SignalType.repetition, SignalType.escalation, SignalType.copy_paste,
        SignalType.ignoring_questions] := by
  have hinit : ∀ y, y ∈ (all_rules.foldl (ruleStep t.toList) ([], [])).1 →
      y ∈ all_rules.map (·.signal) := by
    intro y hy
    rcases foldl_ruleStep_mem t.toList all_rules ([], []) y hy with hm | hm
    · simp at hm
    · exact hm
  simp only [detect_signals] at hx
  split at hx
  · exact Or.inl (hinit x hx)
  · rw [condAdd_mem] at hx
    rcases hx with hx | ⟨_, rfl⟩
    · rw [condAdd_mem] at hx
      rcases hx with hx | ⟨_, rfl⟩
      · rw [condAdd_mem] at hx
        rcases hx with hx | ⟨_, rfl⟩
        · rw [condAdd_mem] at hx
          rcases hx with hx | ⟨_, rfl⟩
          · exact Or.inl (hinit x hx)
          · exact Or.inr (by simp)
        · exact Or.inr (by simp)
      · exact Or.inr (by simp)
    · exact Or.inr (by simp)

/-- `deflection` is never among the triggered signals: no rule binds it
and the conversation detectors contribute only their four signals. -/
theorem deflection_not_detected (t : String) (h : List HistEntry) :
    SignalType.deflection ∉ (detect_signals t h).1 := by
  intro hx
  rcases detect_signals_mem t h _ hx with hm | hm
  · rw [all_rules_signals] at hm
    simp at hm
  · simp at hm

/-! ## Claim C7 -/

/-- The multi-turn multiplier exactly as the specification words it:
`1.0 + min(0.1 × (T − 1), 0.3)` with `T` = history length + 1, plus a
further `0.1` when a conversation-pattern-*category* signal is among the
triggered signals, the total clamped to at most 1.4. -/
def spec_turn_multiplier (s : List SignalType) (h : List HistEntry) : ℚ :=
  min (1 + min ((1/10) * (((h.length : ℚ) + 1) - 1)) (3/10) +
      (if s.any (fun sig => get_signal_category sig = SignalCategory.conversation) then 1/10
        else 0))
    (14/10)

/-- For signals other than `deflection`, membership in the source's
conversation-pattern set coincides with having conversation category. -/
theorem conv_set_eq_category (a : SignalType) (ha : a ≠ SignalType.deflection) :
    (decide (a ∈ conversation_pattern_signals)) =
      decide (get_signal_category a = SignalCategory.conversation) := by
  cases a <;> first | decide | exact absurd rfl ha

/-- The source's set-based conversation test agrees with the category
test on any deflection-free signal list. -/
theorem any_conv_eq_category (s : List SignalType) (hdefl : SignalType.deflection ∉ s) :
    (s.any (· ∈ conversation_pattern_signals)) =
      (s.any fun sig => get_signal_category sig = SignalCategory.conversation) := by
  induction s with
  | nil => rfl
  | cons a as ih =>
    simp only [List.any_cons]
    rw [ih (fun hx => hdefl (by simp [hx])),
      conv_set_eq_category a (fun hc => hdefl (by simp [hc]))]

/-- The source's turn multiplier equals the spec's formula whenever the
history is non-empty and `deflection` is absent. -/
theorem turn_multiplier_eq_spec (s : List SignalType) (h : List HistEntry)
    (hne : h ≠ []) (hdefl : SignalType.deflection ∉ s) :
    calculate_turn_multiplier s h = spec_turn_multiplier s h := by
  have hlen : ¬((h.length : ℚ) + 1 = 1) := by
    have hz : h.length ≠ 0 := fun hc => hne (List.length_eq_zero.mp hc)
    intro hc
    apply hz
    have : (h.length : ℚ) = 0 := by linarith
    exact_mod_cast this
  simp only [calculate_turn_multiplier, spec_turn_multiplier]
  rw [if_neg hlen, any_conv_eq_category s hdefl]
  split_ifs
  · rfl
  · rw [add_zero]

/-- **C7.**  With non-empty history the confidence is the clamped product
of the pre-turn score and the multiplier
`min(1 + min(0.1·(T−1), 0.3) + (0.1 if a conversation-pattern-category
signal triggered), 1.4)` with `T` = history length + 1; with empty
history no turn multiplier enters — the first-message cap applies to the
pre-turn score directly. -/
theorem C7_turn_multiplier (t : String) (h : List HistEntry) (hne : h ≠ []) :
    calculate_confidence (detect_signals t h).1 h false =
      (if (detect_signals t h).1 = [] then 0
        else clamp01 (score_after_combo (detect_signals t h).1 *
          spec_turn_multiplier (detect_signals t h).1 h)) ∧
    calculate_confidence (detect_signals t []).1 [] true =
      (if (detect_signals t []).1 = [] then 0
        else clamp01 (apply_first_message_cap (score_after_combo (detect_signals t []).1)
          (detect_signals t []).1)) := by
  constructor
  · rw [← turn_multiplier_eq_spec _ h hne (deflection_not_detected t h)]
    simp [calculate_confidence, hne]
  · simp [calculate_confidence]

/-- Witness for C7 at "Share your OTP" with one prior scammer turn. -/
theorem C7_witness :
    (calculate_confidence (detect_signals "Share your OTP"
        [HistEntry.dict (some "scammer") (some "share the otp code now please")]).1
      [HistEntry.dict (some "scammer") (some "share the otp code now please")] false =
      (if (detect_signals "Share your OTP"
          [HistEntry.dict (some "scammer") (some "share the otp code now please")]).1 = [] then 0
        else clamp01 (score_after_combo (detect_signals "Share your OTP"
            [HistEntry.dict (some "scammer") (some "share the otp code now please")]).1 *
          spec_turn_multiplier (detect_signals "Share your OTP"
              [HistEntry.dict (some "scammer") (some "share the otp code now please")]).1
            [HistEntry.dict (some "scammer") (some "share the otp code now please")]))) ∧
    (calculate_confidence (detect_signals "Share your OTP" []).1 [] true =
      (if (detect_signals "Share your OTP" []).1 = [] then 0
        else clamp01 (apply_first_message_cap
          (score_after_combo (detect_signals "Share your OTP" []).1)
          (detect_signals "Share your OTP" []).1))) :=
  C7_turn_multiplier "Share your OTP"
    [HistEntry.dict (some "scammer") (some "share the otp code now please")] (by simp)

/-! ## Claim C8 -/

/-- Pair loop of the spec's "any two of the last three" reading. -/
def anyPairHighSim : List String → Bool
  | [] => false
  | a :: rest =>
    rest.any (fun b => decide ((4:ℚ)/5 ≤ text_similarity a b)) || anyPairHighSim rest

/-- The repetition criterion as the specification words it: *some two*
of the last three scammer-sent messages (current included) have word-set
Jaccard similarity *at least* 0.80. -/
def spec_repetition (messages : List String) : Bool :=
  anyPairHighSim (lastN 3 messages)

/-- **C8, counterexample.**  Two divergences from the claim: (a) the
source only compares *adjacent* pairs of the last three — a message
repeated with a different message in between is missed; (b) the source
uses strict `> 0.8` — a pair at exactly 0.80 Jaccard does not fire. -/
theorem C8_counterexample :
    detect_repetition
      ["money now please", "quite different words entirely", "money now please"] = false ∧
    spec_repetition
      ["money now please", "quite different words entirely", "money now please"] = true ∧
    detect_repetition ["pay the fee now cash", "pay the fee now"] = false ∧
    spec_repetition ["pay the fee now cash", "pay the fee now"] = true ∧
    text_similarity "pay the fee now cash" "pay the fee now" = 4/5 := by
  refine ⟨?_, ?_, ?_, ?_, ?_⟩ <;> with_unfolding_all decide

/-- The adjacent-pair loop as an existential over positions. -/
theorem anyAdjacentSimilar_iff (l : List String) :
    anyAdjacentSimilar l = true ↔
      ∃ i, i + 1 < l.length ∧
        (4:ℚ)/5 < text_similarity (l.getD i "") (l.getD (i+1) "") := by
  induction l with
  | nil =>
    simp [anyAdjacentSimilar]
  | cons a rest ih =>
    cases rest with
    | nil => simp [anyAdjacentSimilar]
    | cons b rest2 =>
      simp only [anyAdjacentSimilar, Bool.or_eq_true, decide_eq_true_eq]
      rw [ih]
      constructor
      · rintro (hsim | ⟨i, hi, hs⟩)
        · exact ⟨0, by simp, by simpa using hsim⟩
        · exact ⟨i + 1, by simpa using hi, by simpa using hs⟩
      · rintro ⟨i, hi, hs⟩
        cases i with
        | zero => exact Or.inl (by simpa using hs)
        | succ j => exact Or.inr ⟨j, by simpa using hi, by simpa using hs⟩

/-- `detect_repetition` as an existential over adjacent positions of the
last three messages. -/
theorem detect_repetition_iff (messages : List String) :
    detect_repetition messages = true ↔
      ∃ i, i + 1 < (lastN 3 messages).length ∧
        (4:ℚ)/5 < text_similarity ((lastN 3 messages).getD i "")
          ((lastN 3 messages).getD (i+1) "") := by
  unfold detect_repetition
  split_ifs with hlen
  · constructor
    · intro hc
      exact absurd hc (by simp)
    · rintro ⟨i, hi, _⟩
      have hL : (lastN 3 messages).length ≤ messages.length := by
        simp [lastN]
      omega
  · exact anyAdjacentSimilar_iff _

/-- The repetition signal appears in the detected list iff
`detect_repetition` fires on the scammer messages plus the current
text. -/
theorem repetition_mem_detect_signals (t : String) (h : List HistEntry) (hne : h ≠ []) :
    (SignalType.repetition ∈ (detect_signals t h).1 ↔
      detect_repetition (scammerMessages h ++ [t]) = true) := by
  have hinit : SignalType.repetition ∉ (all_rules.foldl (ruleStep t.toList) ([], [])).1 := by
    intro hx
    rcases foldl_ruleStep_mem t.toList all_rules ([], []) _ hx with hm | hm
    · simp at hm
    · rw [all_rules_signals] at hm
      simp at hm
  have hisEmpty : h.isEmpty = false := by
    cases h with
    | nil => exact absurd rfl hne
    | cons a l => rfl
  simp only [detect_signals, hisEmpty, Bool.false_eq_true, if_false]
  rw [condAdd_mem, condAdd_mem, condAdd_mem, condAdd_mem]
  constructor
  · rintro ((((hx | ⟨hc, _⟩) | ⟨_, hx⟩) | ⟨_, hx⟩) | ⟨_, hx⟩)
    · exact absurd hx hinit
    · exact hc
    · exact absurd hx (by simp)
    · exact absurd hx (by simp)
    · exact absurd hx (by simp)
  · intro hc
    exact Or.inl (Or.inl (Or.inl (Or.inr ⟨hc, rfl⟩)))

/-- **C8, amended.**  Given non-empty history, the repetition signal is
triggered iff some *adjacent* two among the last three scammer-sent
messages (current included) have Jaccard similarity *strictly greater*
than 0.80. -/
theorem C8_amended (t : String) (h : List HistEntry) (hne : h ≠ []) :
    SignalType.repetition ∈ (detect_signals t h).1 ↔
      ∃ i, i + 1 < (lastN 3 (scammerMessages h ++ [t])).length ∧
        (4:ℚ)/5 < text_similarity ((lastN 3 (scammerMessages h ++ [t])).getD i "")
          ((lastN 3 (scammerMessages h ++ [t])).getD (i+1) "") :=
  (repetition_mem_detect_signals t h hne).trans (detect_repetition_iff _)

/-- Witness for C8 amended at a concrete history (the non-adjacent
repeat: the signal is *not* triggered and indeed no adjacent pair is
similar). -/
theorem C8_amended_witness :
    SignalType.repetition ∈ (detect_signals "money now please"
        [HistEntry.dict (some "scammer") (some "money now please"),
         HistEntry.dict (some "scammer") (some "quite different words entirely")]).1 ↔
      ∃ i, i + 1 < (lastN 3 (scammerMessages
          [HistEntry.dict (some "scammer") (some "money now please"),
           HistEntry.dict (some "scammer") (some "quite different words entirely")] ++
            ["money now please"])).length ∧
        (4:ℚ)/5 < text_similarity ((lastN 3 (scammerMessages
            [HistEntry.dict (some "scammer") (some "money now please"),
             HistEntry.dict (some "scammer") (some "quite different words entirely")] ++
              ["money now please"])).getD i "")
          ((lastN 3 (scammerMessages
            [HistEntry.dict (some "scammer") (some "money now please"),
             HistEntry.dict (some "scammer") (some "quite different words entirely")] ++
              ["money now please"])).getD (i+1) "") :=
  C8_amended "money now please"
    [HistEntry.dict (some "scammer") (some "money now please"),
     HistEntry.dict (some "scammer") (some "quite different words entirely")] (by simp)

/-! ## Claim C9 -/

/-- **C9.**  Batch detection maps each input positionally: the output has
the input's length; a position whose single-message call succeeds carries
exactly that result (and no error marker); a position whose call fails
carries the substituted `scamDetected=false, confidence=0, signals=[]`
error shape — other positions are unaffected. -/
theorem C9_batch (msgs : List DetectionInput) :
    (batch_detect msgs).length = msgs.length ∧
    ∀ (i : Nat) (m : DetectionInput), msgs[i]? = some m →
      (∀ r, detect_scam m = .ok r →
        (batch_detect msgs)[i]? =
          some { error := none, scamDetected := r.scamDetected, confidence := r.confidence,
                 signals := r.signals, explanation := r.explanation }) ∧
      (∀ e, detect_scam m = .error e →
        (batch_detect msgs)[i]? =
          some { error := some e, scamDetected := false, confidence := 0,
                 signals := [], explanation := [] }) := by
  induction msgs with
  | nil =>
    refine ⟨rfl, ?_⟩
    intro i m hm
    simp at hm
  | cons msg rest ih =>
    refine ⟨?_, ?_⟩
    · simpa [batch_detect] using ih.1
    · intro i m hm
      cases i with
      | zero =>
        simp only [List.getElem?_cons_zero, Option.some.injEq] at hm
        subst hm
        constructor
        · intro r hr
          simp [batch_detect, hr]
        · intro e he
          simp [batch_detect, he]
      | succ j =>
        simp only [List.getElem?_cons_succ] at hm
        have hrec := ih.2 j m hm
        constructor
        · intro r hr
          simpa [batch_detect] using hrec.1 r hr
        · intro e he
          simpa [batch_detect] using hrec.2 e he

/-- Witness for C9: a one-element batch whose item is missing `text`
yields the substituted error shape at position 0. -/
theorem C9_batch_witness :
    (batch_detect [{ text := none, conversationHistory := HistVal.missing }]).length =
      [({ text := none, conversationHistory := HistVal.missing } : DetectionInput)].length ∧
    (batch_detect [{ text := none, conversationHistory := HistVal.missing }])[0]? =
      some { error := some "Input must contain 'text' field", scamDetected := false,
             confidence := 0, signals := [], explanation := [] } :=
  ⟨(C9_batch _).1,
    ((C9_batch [{ text := none, conversationHistory := HistVal.missing }]).2 0 _ rfl).2
      "Input must contain 'text' field" rfl⟩

/-! ## Claim C10 -/

/-- Distinct signals carry distinct identifier strings. -/
theorem value_injective : ∀ a b : SignalType, a.value = b.value → a = b := by decide

/-- Keys of the explanation map track the detected list through one
text-rule step. -/
theorem ruleStep_keys (text : Chars) (r : PatternRule)
    (acc : List SignalType × List (String × String))
    (h : acc.2.map Prod.fst = acc.1.map SignalType.value) :
    (ruleStep text acc r).2.map Prod.fst = (ruleStep text acc r).1.map SignalType.value := by
  unfold ruleStep
  split_ifs with h1 h2
  · exact h
  · have hkey : (acc.2.any (·.1 == r.signal.value)) = false := by
      rw [List.any_eq_false]
      intro p hp
      simp only [beq_iff_eq]
      intro hpv
      apply h2
      have hmem : p.1 ∈ acc.1.map SignalType.value := by
        rw [← h]
        exact List.mem_map_of_mem Prod.fst hp
      rcases List.mem_map.mp hmem with ⟨sig, hsig, hval⟩
      have hsg : sig = r.signal := value_injective _ _ (hval.trans hpv)
      rwa [hsg] at hsig
    have hins : dictInsert acc.2 r.signal.value r.description =
        acc.2 ++ [(r.signal.value, r.description)] := by
      unfold dictInsert
      rw [hkey]
      simp
    simp [hins, h]
  · exact h

/-- Keys of the explanation map track the detected list through the whole
text-rule fold. -/
theorem foldl_ruleStep_keys (text : Chars) :
    ∀ (rules : List PatternRule) (acc : List SignalType × List (String × String)),
      acc.2.map Prod.fst = acc.1.map SignalType.value →
      (rules.foldl (ruleStep text) acc).2.map Prod.fst =
        (rules.foldl (ruleStep text) acc).1.map SignalType.value := by
  intro rules
  induction rules with
  | nil =>
    intro acc h
    exact h
  | cons r rs ih =>
    intro acc h
    exact ih _ (ruleStep_keys text r acc h)

/-- Keys of the explanation map track the detected list through one
conversation-detector step, provided the contributed signal is fresh. -/
theorem condAdd_keys (c : Bool) (sig : SignalType) (desc : String)
    (acc : List SignalType × List (String × String))
    (h : acc.2.map Prod.fst = acc.1.map SignalType.value)
    (hfresh : sig ∉ acc.1) :
    (condAdd c sig desc acc).2.map Prod.fst =
      (condAdd c sig desc acc).1.map SignalType.value := by
  unfold condAdd
  cases c with
  | false => exact h
  | true =>
    simp only [if_true]
    have hkey : (acc.2.any (·.1 == sig.value)) = false := by
      rw [List.any_eq_false]
      intro p hp
      simp only [beq_iff_eq]
      intro hpv
      apply hfresh
      have hmem : p.1 ∈ acc.1.map SignalType.value := by
        rw [← h]
        exact List.mem_map_of_mem Prod.fst hp
      rcases List.mem_map.mp hmem with ⟨sig', hsig', hval⟩
      have hsg : sig' = sig := value_injective _ _ (hval.trans hpv)
      rwa [hsg] at hsig'
    have hins : dictInsert acc.2 sig.value desc = acc.2 ++ [(sig.value, desc)] := by
      unfold dictInsert
      rw [hkey]
      simp
    simp [hins, h]

/-- The key list of the explanation map is exactly the identifier list of
the detected signals. -/
theorem detect_signals_keys (t : String) (h : List HistEntry) :
    (detect_signals t h).2.map Prod.fst = (detect_signals t h).1.map SignalType.value := by
  have hinit := foldl_ruleStep_keys t.toList all_rules ([], []) rfl
  have hmem : ∀ y, y ∈ (all_rules.foldl (ruleStep t.toList) ([], [])).1 →
      y ∈ all_rules.map (·.signal) := by
    intro y hy
    rcases foldl_ruleStep_mem t.toList all_rules ([], []) y hy with hm | hm
    · simp at hm
    · exact hm
  have hni : ∀ y : SignalType,
      y ∈ ([SignalType.repetition, SignalType.escalation, SignalType.copy_paste,
        SignalType.ignoring_questions] : List SignalType) →
      y ∉ (all_rules.foldl (ruleStep t.toList) ([], [])).1 := by
    intro y hy hx
    have hz := hmem y hx
    rw [all_rules_signals] at hz
    fin_cases hy <;> simp_all
  simp only [detect_signals]
  split
  · exact hinit
  · have f1 : SignalType.repetition ∉ (all_rules.foldl (ruleStep t.toList) ([], [])).1 :=
      hni _ (by simp)
    have k1 := condAdd_keys (detect_repetition (scammerMessages h ++ [t]))
      SignalType.repetition "Scammer is repeating similar messages" _ hinit f1
    have f2 : SignalType.escalation ∉
        (condAdd (detect_repetition (scammerMessages h ++ [t])) SignalType.repetition
          "Scammer is repeating similar messages"
          (all_rules.foldl (ruleStep t.toList) ([], []))).1 := by
      rw [condAdd_mem]
      rintro (hx | ⟨_, hx⟩)
      · exact hni _ (by simp) hx
      · exact absurd hx (by decide)
    have k2 := condAdd_keys (detect_escalation (scammerMessages h ++ [t]))
      SignalType.escalation "Threat level escalating across conversation" _ k1 f2
    have f3 : SignalType.copy_paste ∉
        (condAdd (detect_escalation (scammerMessages h ++ [t])) SignalType.escalation
          "Threat level escalating across conversation"
          (condAdd (detect_repetition (scammerMessages h ++ [t])) SignalType.repetition
            "Scammer is repeating similar messages"
            (all_rules.foldl (ruleStep t.toList) ([], [])))).1 := by
      rw [condAdd_mem, condAdd_mem]
      rintro ((hx | ⟨_, hx⟩) | ⟨_, hx⟩)
      · exact hni _ (by simp) hx
      · exact absurd hx (by decide)
      · exact absurd hx (by decide)
    have k3 := condAdd_keys (detect_copy_paste (scammerMessages h ++ [t]))
      SignalType.copy_paste "Exact message repetition detected" _ k2 f3
    have f4 : SignalType.ignoring_questions ∉
        (condAdd (detect_copy_paste (scammerMessages h ++ [t])) SignalType.copy_paste
          "Exact message repetition detected"
          (condAdd (detect_escalation (scammerMessages h ++ [t])) SignalType.escalation
            "Threat level escalating across conversation"
            (condAdd (detect_repetition (scammerMessages h ++ [t])) SignalType.repetition
              "Scammer is repeating similar messages"
              (all_rules.foldl (ruleStep t.toList) ([], []))))).1 := by
      rw [condAdd_mem, condAdd_mem, condAdd_mem]
      rintro (((hx | ⟨_, hx⟩) | ⟨_, hx⟩) | ⟨_, hx⟩)
      · exact hni _ (by simp) hx
      · exact absurd hx (by decide)
      · exact absurd hx (by decide)
      · exact absurd hx (by decide)
    exact condAdd_keys (detect_ignoring_questions h) SignalType.ignoring_questions
      "Scammer ignores questions and repeats demands" _ k3 f4

/-- **C10.**  For every accepted input, the key list of the returned
explanation map equals the returned signals list: every listed signal has
an explanation entry and every explanation entry belongs to a listed
signal. -/
theorem C10_explanation_keys (input : DetectionInput) (r : DetectionResult)
    (hok : detect_scam input = .ok r) :
    r.explanation.map Prod.fst = r.signals ∧
    ∀ sigid : String, (∃ d, (sigid, d) ∈ r.explanation) ↔ sigid ∈ r.signals := by
  rcases input with ⟨text, ch⟩
  cases text with
  | none => exact absurd hok (by simp [detect_scam])
  | some t =>
    have hok' : (if (trimWs t.toList).isEmpty then
          (Except.error "'text' must be a non-empty string" : Except String DetectionResult)
        else if (!(effective_history ch).isEmpty &&
            (effective_history ch).any (· == HistEntry.nonDict)) then
          Except.error "AttributeError: 'int' object has no attribute 'get'"
        else
          Except.ok
            { scamDetected := (score_message (detect_signals t (effective_history ch)).1
                (effective_history ch)).scamDetected
            , confidence := (score_message (detect_signals t (effective_history ch)).1
                (effective_history ch)).confidence
            , signals := (detect_signals t (effective_history ch)).1.map SignalType.value
            , explanation := (detect_signals t (effective_history ch)).2 })
        = Except.ok r := hok
    split at hok'
    · simp at hok'
    · split at hok'
      · simp at hok'
      · rw [Except.ok.injEq] at hok'
        subst hok'
        have hkeys := detect_signals_keys t (effective_history ch)
        refine ⟨by simpa using hkeys, ?_⟩
        intro sigid
        constructor
        · rintro ⟨d, hd⟩
          have hx : sigid ∈ (detect_signals t (effective_history ch)).2.map Prod.fst := by
            simpa using List.mem_map_of_mem Prod.fst hd
          rw [hkeys] at hx
          simpa using hx
        · intro hs
          have hx : sigid ∈ (detect_signals t (effective_history ch)).2.map Prod.fst := by
            rw [hkeys]
            simpa using hs
          rcases List.mem_map.mp hx with ⟨p, hp, hfst⟩
          refine ⟨p.2, ?_⟩
          have hpe : (sigid, p.2) = p := by
            rw [← hfst]
          simpa [hpe] using hp

/-- The result of an accepted input with no recognisable indicator. -/
def emptyResult : DetectionResult :=
  { scamDetected := false, confidence := 0, signals := [], explanation := [] }

/-- Witness for C10 at a signal-free accepted input (empty signals and
empty explanation agree). -/
theorem C10_witness :
    emptyResult.explanation.map Prod.fst = emptyResult.signals ∧
    ∀ sigid : String,
      (∃ d, (sigid, d) ∈ emptyResult.explanation) ↔ sigid ∈ emptyResult.signals :=
  C10_explanation_keys { text := some "hello there", conversationHistory := .missing }
    emptyResult (by with_unfolding_all rfl)

end ScamDetect
